import Mathlib

/-!
# Verification of vtkAMRUtilities (Parallel/vtkAMRUtilities.cxx)

A shallow embedding of the AMR metadata-reconciliation core:

* `vtkAMRBox` — the box descriptor value type (level, owner process,
  integer index bounds, dataset origin, grid spacing).
* `vtkUniformGrid` / `vtkHierarchicalBoxDataSet` — the external grid and
  hierarchy providers, modelled as plain data (the spec treats them as
  opaque providers of bounds, origin, spacing, cell dimensions and of a
  tagged-optional per-(level, slot) metadata table).
* The six components of the core: origin resolver, box codec, box
  builder, local metadata assembler, metadata distributor, refinement
  ratio calculator.

Machine doubles are modelled as rationals (`ℚ`); C `round` (half away
from zero) is `cround`.  The wire buffer is a `List ℚ` of abstract byte
cells: the count prefix occupies 4 cells mirroring `sizeof(int)`, and a
box descriptor occupies `vtkAMRBox.GetBytesize` cells, one per scalar
field of the descriptor; this preserves the fixed-size-record layout and
all of the offset arithmetic of the source.
-/

namespace VTKAMR

/-- C's `round` from `<cmath>`: round half away from zero. -/
def cround (x : ℚ) : ℤ :=
  if 0 ≤ x then ⌊x + 1/2⌋ else -⌊-x + 1/2⌋

/-- The box descriptor (spec §3): level, owner process, inclusive integer
index bounds `lo`/`hi`, global dataset origin and per-level grid spacing. -/
structure vtkAMRBox where
  loCorner : ℤ × ℤ × ℤ
  hiCorner : ℤ × ℤ × ℤ
  dataSetOrigin : ℚ × ℚ × ℚ
  gridSpacing : ℚ × ℚ × ℚ
  boxLevel : ℤ
  processId : ℤ
deriving DecidableEq

instance : Inhabited vtkAMRBox :=
  ⟨⟨(0, 0, 0), (0, 0, 0), (0, 0, 0), (0, 0, 0), 0, 0⟩⟩

def vtkAMRBox.SetDimensions (b : vtkAMRBox) (lo hi : ℤ × ℤ × ℤ) : vtkAMRBox :=
  { b with loCorner := lo, hiCorner := hi }

def vtkAMRBox.SetDataSetOrigin (b : vtkAMRBox) (o : ℚ × ℚ × ℚ) : vtkAMRBox :=
  { b with dataSetOrigin := o }

def vtkAMRBox.SetGridSpacing (b : vtkAMRBox) (h : ℚ × ℚ × ℚ) : vtkAMRBox :=
  { b with gridSpacing := h }

def vtkAMRBox.SetLevel (b : vtkAMRBox) (l : ℤ) : vtkAMRBox :=
  { b with boxLevel := l }

def vtkAMRBox.SetProcessId (b : vtkAMRBox) (p : ℤ) : vtkAMRBox :=
  { b with processId := p }

/-- Modelled from the spec: `vtkAMRBox::GetBytesize` is not under `src/`;
the spec only fixes that a descriptor has a fixed, implementation-defined
byte size identical across processes.  In this model a descriptor
occupies one abstract byte cell per scalar field: 14 cells. -/
def vtkAMRBox.GetBytesize : ℕ := 14

/-- Modelled from the spec: `vtkAMRBox::Serialize` is not under `src/`;
per spec §4.1 it is a deterministic, total, fixed-size binary encode of a
single descriptor.  The 14 scalar fields are laid out back to back. -/
def vtkAMRBox.Serialize (b : vtkAMRBox) : List ℚ :=
  [(b.boxLevel : ℚ), (b.processId : ℚ),
   (b.loCorner.1 : ℚ), (b.loCorner.2.1 : ℚ), (b.loCorner.2.2 : ℚ),
   (b.hiCorner.1 : ℚ), (b.hiCorner.2.1 : ℚ), (b.hiCorner.2.2 : ℚ),
   b.dataSetOrigin.1, b.dataSetOrigin.2.1, b.dataSetOrigin.2.2,
   b.gridSpacing.1, b.gridSpacing.2.1, b.gridSpacing.2.2]

/-- Modelled from the spec: `vtkAMRBox::Deserialize` is not under `src/`;
it reads one fixed-size record from the front of the byte stream.  A
stream shorter than one record yields a default-constructed box (the
source reads whatever memory is there; the spec's single-box `decode` has
a `MalformedInput` failure, but only the batch decoder is in scope for
the claims below). -/
def vtkAMRBox.Deserialize (bytes : List ℚ) : vtkAMRBox :=
  match bytes with
  | lvl :: pid :: l0 :: l1 :: l2 :: h0 :: h1 :: h2 ::
      o0 :: o1 :: o2 :: s0 :: s1 :: s2 :: _ =>
    { boxLevel := ⌊lvl⌋
      processId := ⌊pid⌋
      loCorner := (⌊l0⌋, ⌊l1⌋, ⌊l2⌋)
      hiCorner := (⌊h0⌋, ⌊h1⌋, ⌊h2⌋)
      dataSetOrigin := (o0, o1, o2)
      gridSpacing := (s0, s1, s2) }
  | _ => default

/-- The little-endian 4-cell encoding of the `int` count prefix, mirroring
the `memcpy(ptr, &N, sizeof(int))` of the source. -/
def natToBytes4 (n : ℕ) : List ℚ :=
  [((n % 256 : ℕ) : ℚ), ((n / 256 % 256 : ℕ) : ℚ),
   ((n / 65536 % 256 : ℕ) : ℚ), ((n / 16777216 % 256 : ℕ) : ℚ)]

/-- Reading the `int` count prefix back from the front of a buffer,
mirroring `memcpy(&N, ptr, sizeof(int))`. -/
def bytesToNat4 (bytes : List ℚ) : ℕ :=
  match bytes with
  | b0 :: b1 :: b2 :: b3 :: _ =>
    ⌊b0⌋.toNat + 256 * ⌊b1⌋.toNat + 65536 * ⌊b2⌋.toNat + 16777216 * ⌊b3⌋.toNat
  | _ => 0

/-- The grid provider (external collaborator, spec §6): per patch it
exposes an origin, a spacing, cell dimensions (number of cells per axis,
i.e. point dimensions minus one, which is what
`GetDimensions(ndim); ndim[i]--` computes in the source) and the
interleaved min/max bounds array read by `GetBounds`. -/
structure vtkUniformGrid where
  gridOrigin : ℚ × ℚ × ℚ
  spacing : ℚ × ℚ × ℚ
  cellDims : ℤ × ℤ × ℤ
  bounds : List ℚ
deriving DecidableEq

/-- The hierarchy provider (spec §3/§6): an ordered list of levels, each
an ordered list of slots that are either empty or hold a grid; a
metadata table keyed by (level, slot) with tagged-optional entries; and
a per-level refinement-ratio slot. -/
structure vtkHierarchicalBoxDataSet where
  levels : List (List (Option vtkUniformGrid))
  metaData : ℕ → ℕ → Option vtkAMRBox
  refinementRatio : ℕ → Option ℤ

def vtkHierarchicalBoxDataSet.GetNumberOfLevels
    (a : vtkHierarchicalBoxDataSet) : ℕ :=
  a.levels.length

def vtkHierarchicalBoxDataSet.GetNumberOfDataSets
    (a : vtkHierarchicalBoxDataSet) (level : ℕ) : ℕ :=
  (a.levels.getD level []).length

def vtkHierarchicalBoxDataSet.GetDataSet
    (a : vtkHierarchicalBoxDataSet) (level idx : ℕ) : Option vtkUniformGrid :=
  (a.levels.getD level []).getD idx none

def vtkHierarchicalBoxDataSet.GetMetaData
    (a : vtkHierarchicalBoxDataSet) (level idx : ℕ) : Option vtkAMRBox :=
  a.metaData level idx

def vtkHierarchicalBoxDataSet.SetMetaData
    (a : vtkHierarchicalBoxDataSet) (level idx : ℕ) (b : vtkAMRBox) :
    vtkHierarchicalBoxDataSet :=
  { a with metaData := fun l' i' =>
      if l' = level ∧ i' = idx then some b else a.metaData l' i' }

def vtkHierarchicalBoxDataSet.SetRefinementRatio
    (a : vtkHierarchicalBoxDataSet) (level : ℕ) (r : ℤ) :
    vtkHierarchicalBoxDataSet :=
  { a with refinementRatio := fun l' =>
      if l' = level then some r else a.refinementRatio l' }

/-- `vtkAMRUtilities::ComputeDataSetOrigin`, single-process path
(`controller == NULL`): fold over the level-0 slots, skipping empty
ones, taking per-axis minima of `bounds[0], bounds[2], bounds[4]`,
starting from the source's initializer `min[0]=min[1]=min[2]=100`. -/
def ComputeDataSetOrigin (amrData : vtkHierarchicalBoxDataSet) : ℚ × ℚ × ℚ :=
  (amrData.levels.getD 0 []).foldl
    (fun m slot =>
      match slot with
      | none => m
      | some gridPtr =>
          (if gridPtr.bounds.getD 0 0 < m.1 then gridPtr.bounds.getD 0 0 else m.1,
           if gridPtr.bounds.getD 2 0 < m.2.1 then gridPtr.bounds.getD 2 0 else m.2.1,
           if gridPtr.bounds.getD 4 0 < m.2.2 then gridPtr.bounds.getD 4 0 else m.2.2))
    (100, 100, 100)

/-- `vtkAMRUtilities::CreateAMRBoxForGrid`: clamp the cell dimensions to
at least 1 per axis, compute `lo[i] = round((gridOrigin[i]-origin[i])/h[i])`
and `hi[i] = lo[i] + (ndim[i]-1)` (the source's `round` of that integer
expression is the identity), then install dimensions, dataset origin and
grid spacing into the (default-constructed) box. -/
def CreateAMRBoxForGrid (origin : ℚ × ℚ × ℚ) (myGrid : vtkUniformGrid) :
    vtkAMRBox :=
  let nd1 : ℤ := if myGrid.cellDims.1 < 1 then 1 else myGrid.cellDims.1
  let nd2 : ℤ := if myGrid.cellDims.2.1 < 1 then 1 else myGrid.cellDims.2.1
  let nd3 : ℤ := if myGrid.cellDims.2.2 < 1 then 1 else myGrid.cellDims.2.2
  let lo1 : ℤ := cround ((myGrid.gridOrigin.1 - origin.1) / myGrid.spacing.1)
  let lo2 : ℤ := cround ((myGrid.gridOrigin.2.1 - origin.2.1) / myGrid.spacing.2.1)
  let lo3 : ℤ := cround ((myGrid.gridOrigin.2.2 - origin.2.2) / myGrid.spacing.2.2)
  (((default : vtkAMRBox).SetDimensions
      (lo1, lo2, lo3) (lo1 + (nd1 - 1), lo2 + (nd2 - 1), lo3 + (nd3 - 1))).SetDataSetOrigin
      origin).SetGridSpacing myGrid.spacing

/-- Inner loop of `vtkAMRUtilities::ComputeLocalMetaData` over the slots
of one level: `for idx in [0, numDataSets)`, skip empty slots, and for a
non-empty slot build the box, stamp level and process id, and publish it
at (level, idx).  The slot list is walked structurally with `idx` the
index of its head. -/
def assembleRow (origin : ℚ × ℚ × ℚ) (process : ℤ) (level : ℕ) :
    List (Option vtkUniformGrid) → ℕ → vtkHierarchicalBoxDataSet →
    vtkHierarchicalBoxDataSet
  | [], _, a => a
  | none :: rest, idx, a => assembleRow origin process level rest (idx + 1) a
  | some myGrid :: rest, idx, a =>
      assembleRow origin process level rest (idx + 1)
        (a.SetMetaData level idx
          (((CreateAMRBoxForGrid origin myGrid).SetLevel (level : ℤ)).SetProcessId
            process))

/-- Outer loop of `vtkAMRUtilities::ComputeLocalMetaData` over the
levels: `for level in [0, numLevels)`.  The level list is walked
structurally with `level` the index of its head. -/
def assembleLevels (origin : ℚ × ℚ × ℚ) (process : ℤ) :
    List (List (Option vtkUniformGrid)) → ℕ → vtkHierarchicalBoxDataSet →
    vtkHierarchicalBoxDataSet
  | [], _, a => a
  | row :: rest, level, a =>
      assembleLevels origin process rest (level + 1)
        (assembleRow origin process level row 0 a)

/-- `vtkAMRUtilities::ComputeLocalMetaData`: walk every (level, idx)
slot of the hierarchy; a non-empty slot gets a box built by
`CreateAMRBoxForGrid`, stamped with its level and the calling process
id, and stored via `SetMetaData`; empty slots are skipped. -/
def ComputeLocalMetaData (origin : ℚ × ℚ × ℚ)
    (myAMRData : vtkHierarchicalBoxDataSet) (process : ℤ) :
    vtkHierarchicalBoxDataSet :=
  assembleLevels origin process myAMRData.levels 0 myAMRData

/-- STEP 0 of `vtkAMRUtilities::SerializeMetaData`: collect, level by
level and slot by slot, the metadata box of every non-empty slot
(`GetMetaData(level, idx, myBox)` copies the stored entry into a
default-constructed box, hence `getD default`). -/
def collectBoxes (amrData : vtkHierarchicalBoxDataSet) : List vtkAMRBox :=
  (List.range amrData.GetNumberOfLevels).flatMap (fun level =>
    (List.range (amrData.GetNumberOfDataSets level)).filterMap (fun idx =>
      match amrData.GetDataSet level idx with
      | some _ => some ((amrData.GetMetaData level idx).getD default)
      | none => none))

/-- STEPs 1-3 of `vtkAMRUtilities::SerializeMetaData`: the buffer is the
4-cell count prefix followed by the fixed-size records back to back, and
the reported byte count is `sizeof(int) + GetBytesize * N`. -/
def encodeBoxList (boxList : List vtkAMRBox) : List ℚ × ℕ :=
  (natToBytes4 boxList.length ++ (boxList.map vtkAMRBox.Serialize).flatten,
   4 + vtkAMRBox.GetBytesize * boxList.length)

/-- `vtkAMRUtilities::SerializeMetaData`: collect the local boxes and
encode them; returns (buffer, numBytes). -/
def SerializeMetaData (amrData : vtkHierarchicalBoxDataSet) : List ℚ × ℕ :=
  encodeBoxList (collectBoxes amrData)

/-- The decode loop of `vtkAMRUtilities::DeserializeMetaData`: read `n`
fixed-size records off the front of the stream, advancing the read
pointer by `GetBytesize` each time. -/
def deserializeBoxes : ℕ → List ℚ → List vtkAMRBox
  | 0, _ => []
  | n + 1, bytes =>
      vtkAMRBox.Deserialize bytes ::
        deserializeBoxes n (bytes.drop vtkAMRBox.GetBytesize)

/-- `vtkAMRUtilities::DeserializeMetaData`: read the count prefix `N`
from the front of the buffer and decode exactly `N` records.  The
declared `numBytes` is only checked positive by an assertion in the
source; the decode loop itself never consults it. -/
def DeserializeMetaData (buffer : List ℚ) (numBytes : ℕ) : List vtkAMRBox :=
  deserializeBoxes (bytesToNat4 buffer) (buffer.drop 4)

/-- The per-rank byte counts gathered in STEP 1 of
`vtkAMRUtilities::DistributeMetaData`. -/
def rcvcounts (ranks : List vtkHierarchicalBoxDataSet) : List ℕ :=
  (ranks.map SerializeMetaData).map Prod.snd

/-- STEP 3 of `vtkAMRUtilities::DistributeMetaData`: the exclusive
prefix sums `offSet[0] = 0`, `offSet[i] = offSet[i-1] + rcvcounts[i-1]`. -/
def offSet (ranks : List vtkHierarchicalBoxDataSet) (i : ℕ) : ℕ :=
  ((rcvcounts ranks).take i).sum

/-- `vtkAMRUtilities::DistributeMetaData` across a topology given as the
per-rank hierarchies.  Each rank serializes its own metadata (STEP 0);
the byte counts are exchanged (STEP 1; the collective transport is
external, so the all-gather is modelled from the spec: every process
obtains the same `counts` vector); the receive buffer is the
concatenation of the per-rank buffers in rank order (STEP 4, the
all-gatherv result per spec §4.5: rank i's contribution occupies
`[offSet[i], offSet[i]+counts[i])`); STEP 5 decodes each rank's
sub-range.  Returns the per-rank decoded box lists every process holds. -/
def DistributeMetaData (ranks : List vtkHierarchicalBoxDataSet) :
    List (List vtkAMRBox) :=
  let rcvBuffer := ((ranks.map SerializeMetaData).map Prod.fst).flatten
  (List.range ranks.length).map (fun i =>
    DeserializeMetaData
      ((rcvBuffer.drop (offSet ranks i)).take ((rcvcounts ranks).getD i 0))
      ((rcvcounts ranks).getD i 0))

/-- Loop body of `vtkAMRUtilities::ComputeLevelRefinementRatio` for one
`level >= 1`: read the slot-0 metadata of the parent level and of this
level, compute `ratio = round(parentSpacing[0]/currentSpacing[0])`, and
record it for this level — also for level 0 when `level == 1`. -/
def ratioStep (amr : vtkHierarchicalBoxDataSet) (level : ℕ) :
    vtkHierarchicalBoxDataSet :=
  let parentBox := (amr.GetMetaData (level - 1) 0).getD default
  let myBox := (amr.GetMetaData level 0).getD default
  let ratio := cround (parentBox.gridSpacing.1 / myBox.gridSpacing.1)
  let amr' := if level = 1 then amr.SetRefinementRatio 0 ratio else amr
  amr'.SetRefinementRatio level ratio

/-- `vtkAMRUtilities::ComputeLevelRefinementRatio`: no-op on an empty
hierarchy; a single-level hierarchy gets the conventional ratio 2 at
level 0; otherwise the loop runs for `level = 1 .. numLevels-1`. -/
def ComputeLevelRefinementRatio (amr : vtkHierarchicalBoxDataSet) :
    vtkHierarchicalBoxDataSet :=
  if amr.GetNumberOfLevels = 0 then amr
  else if amr.GetNumberOfLevels = 1 then amr.SetRefinementRatio 0 2
  else (List.range' 1 (amr.GetNumberOfLevels - 1)).foldl ratioStep amr

/-- Modelled from the spec: spec §4.1's `decodeSequence(bytes, byteLength)`
with its `TruncatedBuffer` failure path — it "fails with TruncatedBuffer
if byteLength is smaller than 4 + count * descriptorSize".  Stated as a
refinement target to compare with the source's `DeserializeMetaData`. -/
def decodeSequenceSpec (bytes : List ℚ) (byteLength : ℕ) :
    Option (List vtkAMRBox) :=
  if byteLength < 4 + bytesToNat4 bytes * vtkAMRBox.GetBytesize then none
  else some (deserializeBoxes (bytesToNat4 bytes) (bytes.drop 4))

/-- Modelled from the spec: spec §4.2's Box Builder with its
`InvalidGrid` failure path — "Fails with InvalidGrid if any spacing
component is ≤ 0"; otherwise `lo[i] = round((gridOrigin[i]-origin[i])/spacing[i])`,
`hi[i] = lo[i] + max(cellDimensions[i],1) - 1`, with datasetOrigin and
gridSpacing copied verbatim.  Stated as a refinement target to compare
with the source's `CreateAMRBoxForGrid`. -/
def CreateAMRBoxForGridSpec (origin : ℚ × ℚ × ℚ) (g : vtkUniformGrid) :
    Option vtkAMRBox :=
  if g.spacing.1 ≤ 0 ∨ g.spacing.2.1 ≤ 0 ∨ g.spacing.2.2 ≤ 0 then none
  else
    let lo1 : ℤ := cround ((g.gridOrigin.1 - origin.1) / g.spacing.1)
    let lo2 : ℤ := cround ((g.gridOrigin.2.1 - origin.2.1) / g.spacing.2.1)
    let lo3 : ℤ := cround ((g.gridOrigin.2.2 - origin.2.2) / g.spacing.2.2)
    some
      { loCorner := (lo1, lo2, lo3)
        hiCorner := (lo1 + max g.cellDims.1 1 - 1, lo2 + max g.cellDims.2.1 1 - 1,
                     lo3 + max g.cellDims.2.2 1 - 1)
        dataSetOrigin := origin
        gridSpacing := g.spacing
        boxLevel := 0
        processId := 0 }

/-! ### Concrete sample data used by witnesses and counterexamples -/

/-- A well-formed grid: the spec §8 concrete scenario (origin 0, unit
spacing, 4x4x1 cells). -/
def gridW : vtkUniformGrid :=
  { gridOrigin := (0, 0, 0), spacing := (1, 1, 1), cellDims := (4, 4, 1),
    bounds := [0, 4, 0, 4, 0, 1] }

/-- A level-0 grid whose lower bounds (200, 300, 400) all exceed the
source's sentinel 100. -/
def gridC1 : vtkUniformGrid :=
  { gridOrigin := (200, 300, 400), spacing := (1, 1, 1), cellDims := (10, 10, 10),
    bounds := [200, 210, 300, 310, 400, 410] }

/-- A grid with a negative spacing component. -/
def gridNeg : vtkUniformGrid :=
  { gridOrigin := (3, 0, 0), spacing := (-1, 1, 1), cellDims := (2, 2, 2),
    bounds := [0, 2, 0, 2, 0, 2] }

def boxA : vtkAMRBox :=
  { loCorner := (0, 0, 0), hiCorner := (3, 3, 0), dataSetOrigin := (0, 0, 0),
    gridSpacing := (1, 1, 1), boxLevel := 0, processId := 0 }

def boxB : vtkAMRBox :=
  { loCorner := (4, 0, 0), hiCorner := (7, 3, 0), dataSetOrigin := (0, 0, 0),
    gridSpacing := (1, 1, 1), boxLevel := 0, processId := 1 }

def boxC : vtkAMRBox :=
  { loCorner := (0, 4, 0), hiCorner := (3, 7, 0), dataSetOrigin := (0, 0, 0),
    gridSpacing := (1, 2, 1), boxLevel := 1, processId := 1 }

/-- A reference box carrying isotropic spacing `s`. -/
def boxSpacing (s : ℚ) : vtkAMRBox :=
  { loCorner := (0, 0, 0), hiCorner := (0, 0, 0), dataSetOrigin := (0, 0, 0),
    gridSpacing := (s, s, s), boxLevel := 0, processId := 0 }

/-- Single-process hierarchy whose only level-0 grid lies entirely above
coordinate 100 on every axis. -/
def amrC1 : vtkHierarchicalBoxDataSet :=
  { levels := [[some gridC1]], metaData := fun _ _ => none,
    refinementRatio := fun _ => none }

/-- A hierarchy with no levels at all (zero non-empty slots). -/
def emptyAMR : vtkHierarchicalBoxDataSet :=
  { levels := [], metaData := fun _ _ => none, refinementRatio := fun _ => none }

/-- A rank owning one patch, its metadata already assembled. -/
def rank1 : vtkHierarchicalBoxDataSet :=
  { levels := [[some gridW]],
    metaData := fun l i => if l = 0 ∧ i = 0 then some boxA else none,
    refinementRatio := fun _ => none }

/-- A rank owning two patches, its metadata already assembled. -/
def rank2 : vtkHierarchicalBoxDataSet :=
  { levels := [[some gridW, some gridW]],
    metaData := fun l i =>
      if l = 0 ∧ i = 0 then some boxB
      else if l = 0 ∧ i = 1 then some boxC else none,
    refinementRatio := fun _ => none }

/-- Three-level hierarchy whose slot-0 reference boxes carry isotropic
spacings 1, 1/2, 1/4. -/
def amrC5 : vtkHierarchicalBoxDataSet :=
  { levels := [[none], [none], [none]],
    metaData := fun l i =>
      if l = 0 ∧ i = 0 then some (boxSpacing 1)
      else if l = 1 ∧ i = 0 then some (boxSpacing (1/2))
      else if l = 2 ∧ i = 0 then some (boxSpacing (1/4)) else none,
    refinementRatio := fun _ => none }

/-- Single-level hierarchy with slot-0 metadata present. -/
def amrL1 : vtkHierarchicalBoxDataSet :=
  { levels := [[some gridW]],
    metaData := fun l i => if l = 0 ∧ i = 0 then some boxA else none,
    refinementRatio := fun _ => none }

/-- Two-level hierarchy with slot-0 reference boxes of spacings 1 and 1/2. -/
def amrL2 : vtkHierarchicalBoxDataSet :=
  { levels := [[none], [none]],
    metaData := fun l i =>
      if l = 0 ∧ i = 0 then some (boxSpacing 1)
      else if l = 1 ∧ i = 0 then some (boxSpacing (1/2)) else none,
    refinementRatio := fun _ => none }

/-- A hierarchy with one non-empty and one empty slot at level 0 and no
metadata assembled yet. -/
def amrC10 : vtkHierarchicalBoxDataSet :=
  { levels := [[some gridW, none]], metaData := fun _ _ => none,
    refinementRatio := fun _ => none }

/-- The buffer encoding the single-element box list. -/
def buf7 : List ℚ := (encodeBoxList [boxA]).1

/-! ### Box codec helper lemmas -/

theorem serialize_append_deserialize (b : vtkAMRBox) (rest : List ℚ) :
    vtkAMRBox.Deserialize (b.Serialize ++ rest) = b := by
  obtain ⟨⟨a1, a2, a3⟩, ⟨c1, c2, c3⟩, ⟨d1, d2, d3⟩, ⟨e1, e2, e3⟩, f, g⟩ := b
  simp [vtkAMRBox.Serialize, vtkAMRBox.Deserialize]

theorem serialize_append_drop (b : vtkAMRBox) (rest : List ℚ) :
    (b.Serialize ++ rest).drop vtkAMRBox.GetBytesize = rest := by
  obtain ⟨⟨a1, a2, a3⟩, ⟨c1, c2, c3⟩, ⟨d1, d2, d3⟩, ⟨e1, e2, e3⟩, f, g⟩ := b
  simp [vtkAMRBox.Serialize, vtkAMRBox.GetBytesize]

theorem natToBytes4_append_bytesToNat4 (n : ℕ) (rest : List ℚ)
    (h : n < 4294967296) :
    bytesToNat4 (natToBytes4 n ++ rest) = n := by
  simp only [natToBytes4, bytesToNat4, List.cons_append, List.nil_append,
    Int.floor_natCast, Int.toNat_natCast]
  omega

theorem natToBytes4_append_drop (n : ℕ) (rest : List ℚ) :
    (natToBytes4 n ++ rest).drop 4 = rest := by
  simp [natToBytes4]

theorem deserializeBoxes_flatten (L : List vtkAMRBox) (rest : List ℚ) :
    deserializeBoxes L.length ((L.map vtkAMRBox.Serialize).flatten ++ rest)
      = L := by
  induction L generalizing rest with
  | nil => rfl
  | cons b L ih =>
    show deserializeBoxes (L.length + 1)
      ((b.Serialize ++ (L.map vtkAMRBox.Serialize).flatten) ++ rest) = b :: L
    rw [List.append_assoc, deserializeBoxes, serialize_append_deserialize,
      serialize_append_drop, ih]

theorem deserializeBoxes_length (n : ℕ) (bytes : List ℚ) :
    (deserializeBoxes n bytes).length = n := by
  induction n generalizing bytes with
  | zero => rfl
  | succ n ih => simp [deserializeBoxes, ih]

/-- Round trip of the batch codec over an arbitrary box list, for any
declared byte count. -/
theorem encode_decode (L : List vtkAMRBox) (h : L.length < 4294967296)
    (numBytes : ℕ) :
    DeserializeMetaData (encodeBoxList L).1 numBytes = L := by
  show deserializeBoxes
      (bytesToNat4 (natToBytes4 L.length ++ (L.map vtkAMRBox.Serialize).flatten))
      ((natToBytes4 L.length ++ (L.map vtkAMRBox.Serialize).flatten).drop 4) = L
  rw [natToBytes4_append_bytesToNat4 _ _ h, natToBytes4_append_drop]
  simpa using deserializeBoxes_flatten L []

theorem serialize_length (b : vtkAMRBox) :
    b.Serialize.length = vtkAMRBox.GetBytesize := rfl

theorem flatten_serialize_length (L : List vtkAMRBox) :
    (L.map vtkAMRBox.Serialize).flatten.length
      = vtkAMRBox.GetBytesize * L.length := by
  induction L with
  | nil => rfl
  | cons b L ih =>
    simp only [List.map_cons, List.flatten_cons, List.length_append,
      serialize_length, ih, List.length_cons]
    ring

/-- The byte count reported by the encoder equals the buffer length. -/
theorem encodeBoxList_length (L : List vtkAMRBox) :
    (encodeBoxList L).1.length = (encodeBoxList L).2 := by
  show (natToBytes4 L.length ++ (L.map vtkAMRBox.Serialize).flatten).length
    = 4 + vtkAMRBox.GetBytesize * L.length
  rw [List.length_append, flatten_serialize_length]
  rfl

/-! ### Metadata distributor helper lemmas -/

/-- Rank `i`'s sub-range of the concatenated receive buffer, delimited by
the prefix-sum offsets, is exactly rank `i`'s own contribution. -/
theorem flatten_slice (bufs : List (List ℚ)) (i : ℕ) (h : i < bufs.length) :
    (bufs.flatten.drop (((bufs.take i).map List.length).sum)).take
        (bufs.getD i []).length
      = bufs.getD i [] := by
  induction i generalizing bufs with
  | zero =>
    cases bufs with
    | nil => simp at h
    | cons b rest => simp [List.take_left]
  | succ i ih =>
    cases bufs with
    | nil => simp at h
    | cons b rest =>
      have hr : i < rest.length := by simpa using h
      have hm : ((b :: rest).take (i + 1)).map List.length
          = b.length :: (rest.take i).map List.length := by simp
      rw [hm]
      show ((b ++ rest.flatten).drop
          (b.length + ((rest.take i).map List.length).sum)).take
          (rest.getD i []).length = rest.getD i []
      rw [← List.drop_drop, List.drop_left]
      exact ih rest hr

theorem serializeMetaData_snd (a : vtkHierarchicalBoxDataSet) :
    (SerializeMetaData a).2 = (SerializeMetaData a).1.length :=
  (encodeBoxList_length _).symm

theorem rcvcounts_eq_lengths (ranks : List vtkHierarchicalBoxDataSet) :
    rcvcounts ranks
      = ((ranks.map SerializeMetaData).map Prod.fst).map List.length := by
  induction ranks with
  | nil => rfl
  | cons r rs ih =>
    simp only [rcvcounts, List.map_cons] at ih ⊢
    rw [ih]
    exact congrArg (· :: _) (serializeMetaData_snd r)

/-- Full correctness of the distribution: on every process the decoded
per-rank lists are exactly each rank's own collected box list. -/
theorem distribute_eq_map_collect (ranks : List vtkHierarchicalBoxDataSet)
    (h : ∀ r ∈ ranks, (collectBoxes r).length < 4294967296) :
    DistributeMetaData ranks = ranks.map collectBoxes := by
  unfold DistributeMetaData
  apply List.ext_getElem
  · simp
  intro i h1 h2
  have hlen : i < ranks.length := by simpa using h2
  have hbufs : i < ((ranks.map SerializeMetaData).map Prod.fst).length := by
    simpa using hlen
  simp only [List.getElem_map, List.getElem_range]
  have hoff : offSet ranks i
      = ((((ranks.map SerializeMetaData).map Prod.fst).take i).map
          List.length).sum := by
    rw [offSet, rcvcounts_eq_lengths, List.map_take]
  have hcount : (rcvcounts ranks).getD i 0
      = (((ranks.map SerializeMetaData).map Prod.fst).getD i []).length := by
    rw [rcvcounts_eq_lengths,
      List.getD_eq_getElem _ _ (by simpa using hlen),
      List.getD_eq_getElem _ _ hbufs, List.getElem_map]
  rw [hoff, hcount, flatten_slice _ i hbufs,
    List.getD_eq_getElem _ _ hbufs]
  simp only [List.getElem_map]
  exact encode_decode _ (h _ (List.getElem_mem hlen)) _

/-! ### Refinement ratio helper lemmas -/

theorem ratioStep_metaData (amr : vtkHierarchicalBoxDataSet) (level : ℕ) :
    (ratioStep amr level).metaData = amr.metaData := by
  rw [ratioStep]
  by_cases h : level = 1 <;>
    simp [h, vtkHierarchicalBoxDataSet.SetRefinementRatio]

/-- A loop iteration at a level `s ≥ 2` does not touch the ratio entries
of levels 0 and 1. -/
theorem ratioStep_lower (amr : vtkHierarchicalBoxDataSet) (s l : ℕ)
    (hs : 2 ≤ s) (hl : l < 2) :
    (ratioStep amr s).refinementRatio l = amr.refinementRatio l := by
  have h1 : s ≠ 1 := by omega
  have h2 : l ≠ s := by omega
  rw [ratioStep]
  simp [h1, h2, vtkHierarchicalBoxDataSet.SetRefinementRatio]

/-- The loop iterations for levels `s, s+1, ...` with `s ≥ 2` leave the
ratio entries of levels 0 and 1 unchanged. -/
theorem fold_ratioStep_lower (k : ℕ) : ∀ (s : ℕ), 2 ≤ s →
    ∀ (amr : vtkHierarchicalBoxDataSet) (l : ℕ), l < 2 →
    ((List.range' s k).foldl ratioStep amr).refinementRatio l
      = amr.refinementRatio l := by
  induction k with
  | zero => intro s _ amr l _; rfl
  | succ k ih =>
    intro s hs amr l hl
    rw [List.range'_succ, List.foldl_cons]
    rw [ih (s + 1) (by omega) _ l hl]
    exact ratioStep_lower amr s l hs hl

/-! ### Local metadata assembler helper lemmas -/

/-- The box published for a non-empty slot: built by the box builder,
then stamped with the slot's level and the calling process id. -/
def stampedBox (origin : ℚ × ℚ × ℚ) (process : ℤ) (level : ℕ)
    (g : vtkUniformGrid) : vtkAMRBox :=
  ((CreateAMRBoxForGrid origin g).SetLevel (level : ℤ)).SetProcessId process

theorem assembleRow_other_level (origin : ℚ × ℚ × ℚ) (process : ℤ)
    (level : ℕ) :
    ∀ (row : List (Option vtkUniformGrid)) (idx : ℕ)
      (a : vtkHierarchicalBoxDataSet) (l' i' : ℕ), l' ≠ level →
    (assembleRow origin process level row idx a).metaData l' i'
      = a.metaData l' i' := by
  intro row
  induction row with
  | nil => intro idx a l' i' _; rfl
  | cons o rest ih =>
    intro idx a l' i' hne
    cases o with
    | none => exact ih (idx + 1) a l' i' hne
    | some g =>
      rw [assembleRow, ih (idx + 1) _ l' i' hne]
      simp [vtkHierarchicalBoxDataSet.SetMetaData, hne]

theorem assembleRow_below (origin : ℚ × ℚ × ℚ) (process : ℤ) (level : ℕ) :
    ∀ (row : List (Option vtkUniformGrid)) (idx : ℕ)
      (a : vtkHierarchicalBoxDataSet) (i' : ℕ), i' < idx →
    (assembleRow origin process level row idx a).metaData level i'
      = a.metaData level i' := by
  intro row
  induction row with
  | nil => intro idx a i' _; rfl
  | cons o rest ih =>
    intro idx a i' hlt
    cases o with
    | none => exact ih (idx + 1) a i' (by omega)
    | some g =>
      rw [assembleRow, ih (idx + 1) _ i' (by omega)]
      have : i' ≠ idx := by omega
      simp [vtkHierarchicalBoxDataSet.SetMetaData, this]

theorem assembleRow_written (origin : ℚ × ℚ × ℚ) (process : ℤ) (level : ℕ) :
    ∀ (row : List (Option vtkUniformGrid)) (j idx : ℕ)
      (a : vtkHierarchicalBoxDataSet) (g : vtkUniformGrid),
    row.getD j none = some g →
    (assembleRow origin process level row idx a).metaData level (idx + j)
      = some (stampedBox origin process level g) := by
  intro row
  induction row with
  | nil => intro j idx a g h; simp [List.getD] at h
  | cons o rest ih =>
    intro j idx a g h
    cases j with
    | zero =>
      rw [List.getD_cons_zero] at h
      subst h
      rw [assembleRow,
        assembleRow_below origin process level rest (idx + 1) _ (idx + 0)
          (by omega)]
      simp [vtkHierarchicalBoxDataSet.SetMetaData, stampedBox]
    | succ j =>
      rw [List.getD_cons_succ] at h
      have harith : idx + (j + 1) = (idx + 1) + j := by omega
      rw [harith]
      cases o with
      | none => exact ih j (idx + 1) a g h
      | some g' => exact ih j (idx + 1) _ g h

theorem assembleRow_empty_slot (origin : ℚ × ℚ × ℚ) (process : ℤ)
    (level : ℕ) :
    ∀ (row : List (Option vtkUniformGrid)) (j idx : ℕ)
      (a : vtkHierarchicalBoxDataSet),
    row.getD j none = none →
    (assembleRow origin process level row idx a).metaData level (idx + j)
      = a.metaData level (idx + j) := by
  intro row
  induction row with
  | nil => intro j idx a _; rfl
  | cons o rest ih =>
    intro j idx a h
    cases j with
    | zero =>
      rw [List.getD_cons_zero] at h
      subst h
      exact assembleRow_below origin process level rest (idx + 1) a (idx + 0)
        (by omega)
    | succ j =>
      rw [List.getD_cons_succ] at h
      have harith : idx + (j + 1) = (idx + 1) + j := by omega
      rw [harith]
      cases o with
      | none => exact ih j (idx + 1) a h
      | some g' =>
        rw [assembleRow, ih j (idx + 1) _ h]
        have : (idx + 1) + j ≠ idx := by omega
        simp [vtkHierarchicalBoxDataSet.SetMetaData, this]

theorem assembleLevels_lower (origin : ℚ × ℚ × ℚ) (process : ℤ) :
    ∀ (rows : List (List (Option vtkUniformGrid))) (lvl : ℕ)
      (a : vtkHierarchicalBoxDataSet) (l' i' : ℕ), l' < lvl →
    (assembleLevels origin process rows lvl a).metaData l' i'
      = a.metaData l' i' := by
  intro rows
  induction rows with
  | nil => intro lvl a l' i' _; rfl
  | cons row rest ih =>
    intro lvl a l' i' hlt
    rw [assembleLevels, ih (lvl + 1) _ l' i' (by omega)]
    exact assembleRow_other_level origin process lvl row 0 a l' i' (by omega)

/-- Characterization of the assembled metadata table at a coordinate
`(lvl + r, i)`: an empty slot's entry is untouched; a non-empty slot's
entry is the stamped box of its grid. -/
theorem assembleLevels_lookup (origin : ℚ × ℚ × ℚ) (process : ℤ) :
    ∀ (rows : List (List (Option vtkUniformGrid))) (r : ℕ) (lvl : ℕ)
      (a : vtkHierarchicalBoxDataSet) (i : ℕ),
    ((rows.getD r []).getD i none = none →
      (assembleLevels origin process rows lvl a).metaData (lvl + r) i
        = a.metaData (lvl + r) i)
    ∧ (∀ g, (rows.getD r []).getD i none = some g →
      (assembleLevels origin process rows lvl a).metaData (lvl + r) i
        = some (stampedBox origin process (lvl + r) g)) := by
  intro rows
  induction rows with
  | nil =>
    intro r lvl a i
    refine ⟨fun _ => rfl, fun g h => ?_⟩
    simp [List.getD] at h
  | cons row rest ih =>
    intro r lvl a i
    cases r with
    | zero =>
      rw [List.getD_cons_zero]
      constructor
      · intro h
        rw [assembleLevels,
          assembleLevels_lower origin process rest (lvl + 1) _ (lvl + 0) i
            (by omega)]
        have := assembleRow_empty_slot origin process (lvl + 0) row i 0 a
        simpa using this (by simpa using h)
      · intro g h
        rw [assembleLevels,
          assembleLevels_lower origin process rest (lvl + 1) _ (lvl + 0) i
            (by omega)]
        have := assembleRow_written origin process (lvl + 0) row i 0 a g
        simpa using this (by simpa using h)
    | succ r =>
      rw [List.getD_cons_succ]
      have harith : lvl + (r + 1) = (lvl + 1) + r := by omega
      constructor
      · intro h
        rw [harith, assembleLevels, (ih r (lvl + 1) _ i).1 h]
        exact assembleRow_other_level origin process lvl row 0 a _ i (by omega)
      · intro g h
        rw [harith, assembleLevels, (ih r (lvl + 1) _ i).2 g h]

theorem default_box_eq :
    (default : vtkAMRBox)
      = ⟨(0, 0, 0), (0, 0, 0), (0, 0, 0), (0, 0, 0), 0, 0⟩ := rfl

/-! ### Claim theorems -/

/-- C1: the claim says the single-process origin equals the per-axis
minimum of the level-0 lower bounds, with the running minimum
initialized to a sentinel larger than any plausible coordinate.  The
source initializes the minimum to 100, so for a hierarchy whose only
level-0 grid has lower bounds (200, 300, 400) the computed origin is
(100, 100, 100), not the per-axis minimum of the grid bounds: the code
contradicts the spec's sentinel requirement (it even includes <limits>
without using it). -/
theorem origin_sentinel_bug :
    ComputeDataSetOrigin amrC1 = (100, 100, 100) ∧
    ComputeDataSetOrigin amrC1
      ≠ (gridC1.bounds.getD 0 0, gridC1.bounds.getD 2 0,
         gridC1.bounds.getD 4 0) := by
  decide

/-- C2: decoding the buffer produced by the batch encoder, with the byte
count it reports, yields back exactly the original box list (round-trip
law), for any box list whose length fits the `int` count prefix. -/
theorem serialize_then_deserialize_id (L : List vtkAMRBox)
    (h : L.length < 4294967296) :
    DeserializeMetaData (encodeBoxList L).1 (encodeBoxList L).2 = L :=
  encode_decode L h _

theorem serialize_then_deserialize_id_witness :
    DeserializeMetaData (encodeBoxList [boxA, boxC]).1
        (encodeBoxList [boxA, boxC]).2
      = [boxA, boxC] :=
  serialize_then_deserialize_id [boxA, boxC] (by norm_num)

/-- C3: after the metadata distribution over a topology of N ranks where
rank i owns k_i patches, the concatenated decoded result available on
every process has exactly `sum k_i` entries — one per patch assembled
anywhere in the topology. -/
theorem distribute_metadata_complete (ranks : List vtkHierarchicalBoxDataSet)
    (h : ∀ r ∈ ranks, (collectBoxes r).length < 4294967296) :
    ((DistributeMetaData ranks).map List.length).sum
      = (ranks.map (fun r => (collectBoxes r).length)).sum := by
  rw [distribute_eq_map_collect ranks h, List.map_map]
  rfl

theorem distribute_metadata_complete_witness :
    ((DistributeMetaData [rank1, rank2]).map List.length).sum
      = ([rank1, rank2].map (fun r => (collectBoxes r).length)).sum :=
  distribute_metadata_complete [rank1, rank2] (by decide)

/-- The box builder, characterized with `max`: the source's clamp
`(ndim[i] < 1) ? 1 : ndim[i]` is `max cellDims[i] 1`. -/
theorem createAMRBoxForGrid_eq (origin : ℚ × ℚ × ℚ) (g : vtkUniformGrid) :
    CreateAMRBoxForGrid origin g
      = { loCorner := (cround ((g.gridOrigin.1 - origin.1) / g.spacing.1),
                       cround ((g.gridOrigin.2.1 - origin.2.1) / g.spacing.2.1),
                       cround ((g.gridOrigin.2.2 - origin.2.2) / g.spacing.2.2))
          hiCorner :=
            (cround ((g.gridOrigin.1 - origin.1) / g.spacing.1)
               + max g.cellDims.1 1 - 1,
             cround ((g.gridOrigin.2.1 - origin.2.1) / g.spacing.2.1)
               + max g.cellDims.2.1 1 - 1,
             cround ((g.gridOrigin.2.2 - origin.2.2) / g.spacing.2.2)
               + max g.cellDims.2.2 1 - 1)
          dataSetOrigin := origin
          gridSpacing := g.spacing
          boxLevel := 0
          processId := 0 } := by
  have hmax : ∀ c : ℤ, (if c < 1 then 1 else c) = max c 1 := by
    intro c
    split <;> omega
  simp only [CreateAMRBoxForGrid, vtkAMRBox.SetDimensions,
    vtkAMRBox.SetDataSetOrigin, vtkAMRBox.SetGridSpacing, hmax,
    default_box_eq, vtkAMRBox.mk.injEq, Prod.mk.injEq, true_and, and_true]
  omega

/-- C4: for positive spacing and non-negative cell dimensions, the built
box has `lo[i] = round((gridOrigin[i]-origin[i])/spacing[i])` and
`hi[i] = lo[i] + max(cellDims[i],1) - 1`; consequently `hi[i] >= lo[i]`
on every axis, `hi[i] == lo[i]` on a zero-cell axis, and datasetOrigin
and gridSpacing are copied verbatim from the inputs. -/
theorem create_amr_box_correct (origin : ℚ × ℚ × ℚ) (g : vtkUniformGrid)
    (hs : 0 < g.spacing.1 ∧ 0 < g.spacing.2.1 ∧ 0 < g.spacing.2.2)
    (hc : 0 ≤ g.cellDims.1 ∧ 0 ≤ g.cellDims.2.1 ∧ 0 ≤ g.cellDims.2.2) :
    (CreateAMRBoxForGrid origin g).loCorner
        = (cround ((g.gridOrigin.1 - origin.1) / g.spacing.1),
           cround ((g.gridOrigin.2.1 - origin.2.1) / g.spacing.2.1),
           cround ((g.gridOrigin.2.2 - origin.2.2) / g.spacing.2.2)) ∧
    (CreateAMRBoxForGrid origin g).hiCorner
        = ((CreateAMRBoxForGrid origin g).loCorner.1 + max g.cellDims.1 1 - 1,
           (CreateAMRBoxForGrid origin g).loCorner.2.1
             + max g.cellDims.2.1 1 - 1,
           (CreateAMRBoxForGrid origin g).loCorner.2.2
             + max g.cellDims.2.2 1 - 1) ∧
    ((CreateAMRBoxForGrid origin g).loCorner.1
        ≤ (CreateAMRBoxForGrid origin g).hiCorner.1 ∧
     (CreateAMRBoxForGrid origin g).loCorner.2.1
        ≤ (CreateAMRBoxForGrid origin g).hiCorner.2.1 ∧
     (CreateAMRBoxForGrid origin g).loCorner.2.2
        ≤ (CreateAMRBoxForGrid origin g).hiCorner.2.2) ∧
    ((g.cellDims.1 = 0 →
        (CreateAMRBoxForGrid origin g).hiCorner.1
          = (CreateAMRBoxForGrid origin g).loCorner.1) ∧
     (g.cellDims.2.1 = 0 →
        (CreateAMRBoxForGrid origin g).hiCorner.2.1
          = (CreateAMRBoxForGrid origin g).loCorner.2.1) ∧
     (g.cellDims.2.2 = 0 →
        (CreateAMRBoxForGrid origin g).hiCorner.2.2
          = (CreateAMRBoxForGrid origin g).loCorner.2.2)) ∧
    (CreateAMRBoxForGrid origin g).dataSetOrigin = origin ∧
    (CreateAMRBoxForGrid origin g).gridSpacing = g.spacing := by
  rw [createAMRBoxForGrid_eq]
  refine ⟨rfl, rfl, ⟨?_, ?_, ?_⟩, ⟨?_, ?_, ?_⟩, rfl, rfl⟩
  · simp only; omega
  · simp only; omega
  · simp only; omega
  · intro h0; simp only [h0]; omega
  · intro h0; simp only [h0]; omega
  · intro h0; simp only [h0]; omega

theorem create_amr_box_correct_witness :
    (CreateAMRBoxForGrid (0, 0, 0) gridW).dataSetOrigin = (0, 0, 0) ∧
    (CreateAMRBoxForGrid (0, 0, 0) gridW).gridSpacing = gridW.spacing :=
  (create_amr_box_correct (0, 0, 0) gridW
    (by norm_num [gridW]) (by norm_num [gridW])).2.2.2.2

/-- The refinement-ratio pass on the concrete 1, 1/2, 1/4 three-level
hierarchy is the two loop iterations at levels 1 and 2. -/
theorem amrC5_eval :
    ComputeLevelRefinementRatio amrC5 = ratioStep (ratioStep amrC5 1) 2 := rfl

/-- Evaluated ratios of the concrete 1, 1/2, 1/4 hierarchy: 2 at every
level (0.5/0.25 rounds to 2, not 4). -/
theorem amrC5_ratios :
    (ComputeLevelRefinementRatio amrC5).refinementRatio 0 = some 2 ∧
    (ComputeLevelRefinementRatio amrC5).refinementRatio 1 = some 2 ∧
    (ComputeLevelRefinementRatio amrC5).refinementRatio 2 = some 2 := by
  rw [amrC5_eval]
  refine ⟨?_, ?_, ?_⟩ <;>
    norm_num [ratioStep, vtkHierarchicalBoxDataSet.SetRefinementRatio,
      vtkHierarchicalBoxDataSet.GetMetaData, amrC5, boxSpacing, cround]

/-- C5 counterexample: the claim says the three-level hierarchy with
spacings 1, 1/2, 1/4 records ratios [2, 2, 4]; the code records 2 at
level 2 (round(0.5/0.25) = 2), not 4. -/
theorem refinement_ratios_not_224 :
    (ComputeLevelRefinementRatio amrC5).refinementRatio 2 = some 2 ∧
    ¬ (ComputeLevelRefinementRatio amrC5).refinementRatio 2 = some 4 := by
  refine ⟨amrC5_ratios.2.2, ?_⟩
  rw [amrC5_ratios.2.2]
  decide

/-- C5 amended: for every three-level hierarchy whose slot-0 reference
boxes carry isotropic spacings [1,1,1], [1/2,1/2,1/2], [1/4,1/4,1/4],
the calculator records ratios [2, 2, 2] for levels [0, 1, 2] (the ratio
for level L is round(spacing[L-1][0]/spacing[L][0]), so level 2 gets
round(2) = 2). -/
theorem refinement_ratios_amended (a : vtkHierarchicalBoxDataSet)
    (h3 : a.GetNumberOfLevels = 3)
    (m0 : ((a.GetMetaData 0 0).getD default).gridSpacing = (1, 1, 1))
    (m1 : ((a.GetMetaData 1 0).getD default).gridSpacing = (1/2, 1/2, 1/2))
    (m2 : ((a.GetMetaData 2 0).getD default).gridSpacing = (1/4, 1/4, 1/4)) :
    (ComputeLevelRefinementRatio a).refinementRatio 0 = some 2 ∧
    (ComputeLevelRefinementRatio a).refinementRatio 1 = some 2 ∧
    (ComputeLevelRefinementRatio a).refinementRatio 2 = some 2 := by
  have hr : List.range' 1 (a.GetNumberOfLevels - 1) = [1, 2] := by
    rw [h3]
    decide
  rw [ComputeLevelRefinementRatio, if_neg (by omega), if_neg (by omega), hr,
    List.foldl_cons, List.foldl_cons, List.foldl_nil]
  simp only [vtkHierarchicalBoxDataSet.GetMetaData] at m0 m1 m2
  refine ⟨?_, ?_, ?_⟩ <;>
  · simp [ratioStep, vtkHierarchicalBoxDataSet.SetRefinementRatio,
      vtkHierarchicalBoxDataSet.GetMetaData, m0, m1, m2]
    norm_num [cround]

theorem refinement_ratios_amended_witness :
    (ComputeLevelRefinementRatio amrC5).refinementRatio 0 = some 2 ∧
    (ComputeLevelRefinementRatio amrC5).refinementRatio 1 = some 2 ∧
    (ComputeLevelRefinementRatio amrC5).refinementRatio 2 = some 2 :=
  refinement_ratios_amended amrC5 rfl rfl rfl rfl

/-- C6 counterexample: the claim says a process owning zero patches
serializes to localBytes == 0; the source always emits the count prefix,
so the reported byte count is sizeof(int) = 4, not 0. -/
theorem serialize_empty_not_zero :
    (SerializeMetaData emptyAMR).2 = 4 ∧ (SerializeMetaData emptyAMR).2 ≠ 0 := by
  decide

/-- C6 amended: a process owning zero patches serializes to
localBytes == 4 — the bare count prefix encoding zero boxes — and the
distributor's positivity assertion (`numBytes > 0`) accepts this
boundary case rather than rejecting it. -/
theorem serialize_empty_amended (a : vtkHierarchicalBoxDataSet)
    (h : collectBoxes a = []) :
    (SerializeMetaData a).2 = 4 ∧ 0 < (SerializeMetaData a).2 := by
  constructor <;> simp [SerializeMetaData, encodeBoxList, h]

theorem serialize_empty_amended_witness :
    (SerializeMetaData emptyAMR).2 = 4 ∧ 0 < (SerializeMetaData emptyAMR).2 :=
  serialize_empty_amended emptyAMR rfl

/-- C7 counterexample: a buffer encoding one box but presented with a
declared length of only 4 bytes (< 4 + 1 * descriptorSize).  The claim
says the decoder fails with TruncatedBuffer; the source's decoder
ignores the declared length and happily decodes the record anyway,
while the spec-level decodeSequence rejects the call. -/
theorem deserialize_truncated_decodes_anyway :
    DeserializeMetaData buf7 4 = [boxA] ∧ decodeSequenceSpec buf7 4 = none := by
  constructor
  · exact encode_decode [boxA] (by norm_num) 4
  · have h1 : bytesToNat4 buf7 = 1 :=
      natToBytes4_append_bytesToNat4 1
        (([boxA].map vtkAMRBox.Serialize).flatten) (by norm_num)
    simp [decodeSequenceSpec, h1, vtkAMRBox.GetBytesize]

/-- C7 amended: the source's DeserializeMetaData performs no truncation
check: whenever the declared byteLength is smaller than
4 + count * descriptorSize (count read from the prefix), the spec-level
decoder fails with TruncatedBuffer, but the source still returns exactly
count decoded records, reading past the declared length. -/
theorem deserialize_truncated_amended (bytes : List ℚ) (byteLength : ℕ)
    (h : byteLength < 4 + bytesToNat4 bytes * vtkAMRBox.GetBytesize) :
    decodeSequenceSpec bytes byteLength = none ∧
    (DeserializeMetaData bytes byteLength).length = bytesToNat4 bytes :=
  ⟨by simp [decodeSequenceSpec, h], deserializeBoxes_length _ _⟩

theorem deserialize_truncated_amended_witness :
    decodeSequenceSpec buf7 4 = none ∧
    (DeserializeMetaData buf7 4).length = bytesToNat4 buf7 :=
  deserialize_truncated_amended buf7 4 (by
    show 4 < 4 + bytesToNat4
      (natToBytes4 1 ++ ([boxA].map vtkAMRBox.Serialize).flatten)
        * vtkAMRBox.GetBytesize
    rw [natToBytes4_append_bytesToNat4 1 _ (by norm_num)]
    norm_num [vtkAMRBox.GetBytesize])

/-- C8 counterexample: a grid with spacing (-1, 1, 1).  The claim says
the box builder fails with InvalidGrid and produces no box; the source
performs no spacing validation and returns a box, while the spec-level
builder rejects the grid. -/
theorem invalid_grid_builds_anyway :
    CreateAMRBoxForGrid (0, 0, 0) gridNeg
      = { loCorner := (-3, 0, 0), hiCorner := (-2, 1, 1),
          dataSetOrigin := (0, 0, 0), gridSpacing := (-1, 1, 1),
          boxLevel := 0, processId := 0 } ∧
    CreateAMRBoxForGridSpec (0, 0, 0) gridNeg = none := by
  constructor
  · rw [createAMRBoxForGrid_eq]
    norm_num [gridNeg, cround, vtkAMRBox.mk.injEq]
  · norm_num [CreateAMRBoxForGridSpec, gridNeg]

/-- C8 amended: for a grid with a non-positive spacing component the
spec-level builder fails with InvalidGrid, but the source's builder
performs no validation: it still produces a box, with dataSetOrigin and
gridSpacing copied verbatim from the inputs. -/
theorem invalid_grid_amended (origin : ℚ × ℚ × ℚ) (g : vtkUniformGrid)
    (h : g.spacing.1 ≤ 0 ∨ g.spacing.2.1 ≤ 0 ∨ g.spacing.2.2 ≤ 0) :
    CreateAMRBoxForGridSpec origin g = none ∧
    (CreateAMRBoxForGrid origin g).gridSpacing = g.spacing ∧
    (CreateAMRBoxForGrid origin g).dataSetOrigin = origin := by
  refine ⟨?_, rfl, rfl⟩
  simp only [CreateAMRBoxForGridSpec, if_pos h]

theorem invalid_grid_amended_witness :
    CreateAMRBoxForGridSpec (0, 0, 0) gridNeg = none ∧
    (CreateAMRBoxForGrid (0, 0, 0) gridNeg).gridSpacing = gridNeg.spacing ∧
    (CreateAMRBoxForGrid (0, 0, 0) gridNeg).dataSetOrigin = (0, 0, 0) :=
  invalid_grid_amended (0, 0, 0) gridNeg (Or.inl (by norm_num [gridNeg]))

/-- C9: a single-level hierarchy gets the fixed conventional ratio 2 at
level 0; a hierarchy with two or more levels records at level 0 the same
ratio it records at level 1 (level 0 mirrors level 1). -/
theorem level_zero_ratio (a : vtkHierarchicalBoxDataSet) :
    (a.GetNumberOfLevels = 1 →
      (ComputeLevelRefinementRatio a).refinementRatio 0 = some 2) ∧
    (2 ≤ a.GetNumberOfLevels →
      (ComputeLevelRefinementRatio a).refinementRatio 0
        = (ComputeLevelRefinementRatio a).refinementRatio 1) := by
  constructor
  · intro h1
    rw [ComputeLevelRefinementRatio, if_neg (by omega), if_pos h1]
    simp [vtkHierarchicalBoxDataSet.SetRefinementRatio]
  · intro h2
    rw [ComputeLevelRefinementRatio, if_neg (by omega), if_neg (by omega)]
    obtain ⟨k, hk⟩ : ∃ k, a.GetNumberOfLevels - 1 = k + 1 :=
      ⟨a.GetNumberOfLevels - 2, by omega⟩
    rw [hk, List.range'_succ, List.foldl_cons]
    rw [fold_ratioStep_lower k 2 (by omega) _ 0 (by omega),
      fold_ratioStep_lower k 2 (by omega) _ 1 (by omega)]
    simp [ratioStep, vtkHierarchicalBoxDataSet.SetRefinementRatio]

theorem level_zero_ratio_witness :
    (ComputeLevelRefinementRatio amrL1).refinementRatio 0 = some 2 ∧
    (ComputeLevelRefinementRatio amrL2).refinementRatio 0
      = (ComputeLevelRefinementRatio amrL2).refinementRatio 1 :=
  ⟨(level_zero_ratio amrL1).1 rfl, (level_zero_ratio amrL2).2 (Nat.le_refl 2)⟩

/-- C10: the local metadata assembler publishes an entry for a
(level, slot) coordinate iff the slot is non-empty: a non-empty slot's
entry becomes the built box stamped with the slot's level and the
calling process id, and the entry of an empty slot is never written
(it keeps whatever was there before the call). -/
theorem local_metadata_invariant (origin : ℚ × ℚ × ℚ)
    (a : vtkHierarchicalBoxDataSet) (process : ℤ) (l i : ℕ) :
    (∀ g, a.GetDataSet l i = some g →
      (ComputeLocalMetaData origin a process).GetMetaData l i
          = some (stampedBox origin process l g) ∧
        (stampedBox origin process l g).boxLevel = (l : ℤ) ∧
        (stampedBox origin process l g).processId = process) ∧
    (a.GetDataSet l i = none →
      (ComputeLocalMetaData origin a process).GetMetaData l i
        = a.GetMetaData l i) := by
  have h := assembleLevels_lookup origin process a.levels l 0 a i
  rw [Nat.zero_add] at h
  constructor
  · intro g hg
    exact ⟨h.2 g hg, rfl, rfl⟩
  · intro hg
    exact h.1 hg

theorem local_metadata_invariant_witness :
    ((ComputeLocalMetaData (0, 0, 0) amrC10 7).GetMetaData 0 0
        = some (stampedBox (0, 0, 0) 7 0 gridW) ∧
      (stampedBox (0, 0, 0) 7 0 gridW).boxLevel = 0 ∧
      (stampedBox (0, 0, 0) 7 0 gridW).processId = 7) ∧
    (ComputeLocalMetaData (0, 0, 0) amrC10 7).GetMetaData 0 1
      = amrC10.GetMetaData 0 1 :=
  ⟨(local_metadata_invariant (0, 0, 0) amrC10 7 0 0).1 gridW rfl,
   (local_metadata_invariant (0, 0, 0) amrC10 7 0 1).2 rfl⟩

end VTKAMR
